import Mathlib

/-!
Verification of the ProxyOX proxy runtime against its natural-language
specification.  The Python sources under src/proxy are shallowly embedded:
pure fragments become Lean functions, stateful handlers become explicit
state-passing functions, and filesystem or socket effects become explicit
effect traces.  Timestamps are integers in milliseconds (certificate
validity uses seconds), byte payloads are lists of naturals, and Python
dicts are insertion-ordered association lists.
-/

namespace ProxyOX

/-! ## Python dict model

A Python dict is an insertion-ordered map: assignment replaces the value of
an existing key in place and otherwise appends the new pair at the end.
-/

/-- Dict assignment d[k] = v: replace the (unique) occurrence of k in place,
otherwise append the pair at the end. -/
def dictInsert {α : Type} : List (String × α) → String → α → List (String × α)
  | [], k, v => [(k, v)]
  | p :: t, k, v => if p.1 = k then (k, v) :: t else p :: dictInsert t k v

/-- Dict lookup d.get(k): the value of the first pair whose key is k. -/
def dictLookup {α : Type} : List (String × α) → String → Option α
  | [], _ => none
  | p :: t, k => if p.1 = k then some p.2 else dictLookup t k

theorem dictLookup_dictInsert {α : Type} (d : List (String × α)) (k : String) (v : α)
    (q : String) :
    dictLookup (dictInsert d k v) q = if q = k then some v else dictLookup d q := by
  induction d with
  | nil =>
    simp only [dictInsert, dictLookup]
    by_cases h : q = k
    · simp [h]
    · have h1 : ¬ k = q := fun hh => h hh.symm
      simp [h, h1]
  | cons p t ih =>
    simp only [dictInsert]
    by_cases hp : p.1 = k
    · simp only [if_pos hp, dictLookup]
      by_cases hq : q = k
      · simp [hq]
      · have h1 : ¬ k = q := fun hh => hq hh.symm
        have h2 : ¬ p.1 = q := fun hh => hq (hp.symm.trans hh).symm
        simp [hq, h1, h2]
    · simp only [if_neg hp, dictLookup, ih]
      by_cases hpq : p.1 = q
      · have hqk : ¬ q = k := fun hh => hp (hpq.trans hh)
        simp [hpq, hqk]
      · simp [hpq]

theorem dictLookup_append_single {α : Type} (m : List (String × α)) (n : String) (r : α)
    (h : dictLookup m n = none) :
    dictLookup (m ++ [(n, r)]) n = some r := by
  induction m with
  | nil => simp [dictLookup]
  | cons p t ih =>
    by_cases hp : p.1 = n
    · simp [dictLookup, hp] at h
    · simp [dictLookup, hp] at h ⊢
      exact ih h

/-! ## IP Filter (src/proxy/ip_filter.py)

State: a whitelist, a blacklist (sets of address strings) and a per-address
blocked counter.  The admission predicate is IPFilter.is_allowed
(ip_filter.py lines 69-89).
-/

structure IPFilterState where
  whitelist : List String
  blacklist : List String
  blockedCount : List (String × Nat)
deriving DecidableEq

/-- blocked_count[ip] = blocked_count.get(ip, 0) + 1 -/
def bumpBlocked (counts : List (String × Nat)) (ip : String) : List (String × Nat) :=
  dictInsert counts ip ((dictLookup counts ip).getD 0 + 1)

/-- IPFilter.is_allowed: if the whitelist is non-empty only whitelisted
addresses pass; otherwise everything passes except blacklisted addresses,
whose blocked counter is incremented. -/
def IPFilter.is_allowed (st : IPFilterState) (ip : String) : Bool × IPFilterState :=
  if st.whitelist ≠ [] then
    (decide (ip ∈ st.whitelist), st)
  else if ip ∈ st.blacklist then
    (false, { st with blockedCount := bumpBlocked st.blockedCount ip })
  else
    (true, st)

/-- C7: the admission predicate admits an address iff, when the allowlist is
non-empty, the address is a member of the allowlist, and otherwise the
address is admitted unless it is in the denylist; in the deny case the
blocked counter of the address is incremented by one and in every other
case the filter state is unchanged. -/
theorem ipfilter_admission_characterisation (st : IPFilterState) (ip : String) :
    ((IPFilter.is_allowed st ip).1 = true ↔
      (if st.whitelist ≠ [] then ip ∈ st.whitelist else ip ∉ st.blacklist)) ∧
    (if st.whitelist = [] ∧ ip ∈ st.blacklist then
      ((dictLookup (IPFilter.is_allowed st ip).2.blockedCount ip).getD 0 =
          (dictLookup st.blockedCount ip).getD 0 + 1) ∧
      (IPFilter.is_allowed st ip).2.whitelist = st.whitelist ∧
      (IPFilter.is_allowed st ip).2.blacklist = st.blacklist ∧
      (∀ q, q ≠ ip →
        dictLookup (IPFilter.is_allowed st ip).2.blockedCount q =
          dictLookup st.blockedCount q)
     else (IPFilter.is_allowed st ip).2 = st) := by
  by_cases hw : st.whitelist = []
  · by_cases hb : ip ∈ st.blacklist
    · refine ⟨?_, ?_⟩
      · simp [IPFilter.is_allowed, hw, hb]
      · simp only [hw, hb, and_self, if_true, true_and]
        refine ⟨?_, ?_, ?_, ?_⟩
        · simp [IPFilter.is_allowed, hw, hb, bumpBlocked, dictLookup_dictInsert]
        · simp [IPFilter.is_allowed, hw, hb]
        · simp [IPFilter.is_allowed, hw, hb]
        · intro q hq
          simp [IPFilter.is_allowed, hw, hb, bumpBlocked, dictLookup_dictInsert, hq]
    · constructor
      · simp [IPFilter.is_allowed, hw, hb]
      · simp [IPFilter.is_allowed, hw, hb]
  · constructor
    · simp [IPFilter.is_allowed, hw]
    · simp [IPFilter.is_allowed, hw]

/-- Witness for the C7 theorem: a denied blacklisted address leaves the
counter of every other address untouched. -/
theorem ipfilter_admission_characterisation_witness :
    dictLookup (IPFilter.is_allowed ⟨[], ["9.9.9.9"], []⟩ "9.9.9.9").2.blockedCount
        "1.1.1.1" =
      dictLookup ([] : List (String × Nat)) "1.1.1.1" := by
  have h := (ipfilter_admission_characterisation ⟨[], ["9.9.9.9"], []⟩ "9.9.9.9").2
  rw [if_pos (by decide : ([] : List String) = [] ∧ "9.9.9.9" ∈ ["9.9.9.9"])] at h
  exact h.2.2.2 "1.1.1.1" (by decide)

/-! ## Rate and concurrency gate of the TCP frontend (src/proxy/tcp.py)

TCPProxy keeps rate_limiter = deque(maxlen=rate_limit) of admission
timestamps.  handle_client (tcp.py lines 64-101) appends now, counts the
timestamps of the last second, rejects when that count exceeds rate_limit,
then rejects when active_connections has reached max_connections, and
otherwise admits.  HttpProxy.handle_request (http.py lines 45-76) uses the
identical structure for requests.
-/

structure GateConfig where
  rate_limit : Nat
  max_connections : Nat
deriving DecidableEq

structure GateState where
  rate_limiter : List Int
  active_connections : Nat
  total_connections : Nat
  failed_connections : Nat
deriving DecidableEq

/-- deque(maxlen=m).append(t): append on the right, discarding from the left
when the bound is exceeded. -/
def dequeAppend (m : Nat) (dq : List Int) (t : Int) : List Int :=
  if m < (dq ++ [t]).length then (dq ++ [t]).drop ((dq ++ [t]).length - m)
  else dq ++ [t]

theorem dequeAppend_length_le (m : Nat) (dq : List Int) (t : Int) :
    (dequeAppend m dq t).length ≤ m ∨ (dequeAppend m dq t).length = dq.length + 1 := by
  unfold dequeAppend
  split
  · left
    rename_i h
    simp only [List.length_drop]
    simp only [List.length_append, List.length_cons, List.length_nil] at h ⊢
    omega
  · right
    simp

theorem dequeAppend_length_le_max (m : Nat) (dq : List Int) (t : Int) :
    (dequeAppend m dq t).length ≤ m := by
  unfold dequeAppend
  split
  · rename_i h
    simp only [List.length_drop]
    simp only [List.length_append, List.length_cons, List.length_nil] at h ⊢
    omega
  · rename_i h
    simp only [not_lt] at h
    exact le_trans (le_refl _) h

inductive AdmitResult
  | admitted
  | rateLimited
  | overCapacity
deriving DecidableEq

/-- The number of timestamps of the last second after appending now, i.e.
len([t for t in rate_limiter if now - t <= 1.0]) over the updated deque. -/
def recentCount (cfg : GateConfig) (st : GateState) (now : Int) : Nat :=
  ((dequeAppend cfg.rate_limit st.rate_limiter now).filter
    (fun t => decide (now - t ≤ 1000))).length

/-- The admission part of TCPProxy.handle_client after the IP filter: rate
check first, then the max-connections check, then admission with the
counter updates of the admitted path. -/
def tcpGate (cfg : GateConfig) (st : GateState) (now : Int) : AdmitResult × GateState :=
  if cfg.rate_limit < recentCount cfg st now then
    (AdmitResult.rateLimited,
     { st with rate_limiter := dequeAppend cfg.rate_limit st.rate_limiter now,
               failed_connections := st.failed_connections + 1 })
  else if cfg.max_connections ≤ st.active_connections then
    (AdmitResult.overCapacity,
     { st with rate_limiter := dequeAppend cfg.rate_limit st.rate_limiter now,
               failed_connections := st.failed_connections + 1 })
  else
    (AdmitResult.admitted,
     { st with rate_limiter := dequeAppend cfg.rate_limit st.rate_limiter now,
               active_connections := st.active_connections + 1,
               total_connections := st.total_connections + 1 })

/-- Process a list of connection arrivals through the gate. -/
def runArrivals (cfg : GateConfig) : GateState → List Int → List AdmitResult × GateState
  | st, [] => ([], st)
  | st, t :: ts =>
    let r := tcpGate cfg st t
    let rest := runArrivals cfg r.2 ts
    (r.1 :: rest.1, rest.2)

theorem recentCount_le_rate_limit (cfg : GateConfig) (st : GateState) (now : Int) :
    recentCount cfg st now ≤ cfg.rate_limit :=
  le_trans (List.length_filter_le _ _) (dequeAppend_length_le_max _ _ _)

/-- The rate branch of the gate is unreachable: because the timestamp deque
is bounded by rate_limit, the recent count can never exceed rate_limit. -/
theorem tcpGate_never_rate_limited (cfg : GateConfig) (st : GateState) (now : Int) :
    (tcpGate cfg st now).1 = AdmitResult.admitted ∨
    (tcpGate cfg st now).1 = AdmitResult.overCapacity := by
  have h := recentCount_le_rate_limit cfg st now
  unfold tcpGate
  split
  · omega
  · split
    · right; rfl
    · left; rfl

/-- C1: the rate limit never rejects.  Because rate_limiter is a deque with
maxlen equal to rate_limit, the recent count can never exceed rate_limit
and the rate branch is structurally unreachable; in particular three TCP
connections arriving within 100 ms on a frontend with accept_rate_per_sec
equal to 2 are all admitted and the failed counter stays 0, contradicting
the claim that only two are admitted. -/
theorem rate_limit_check_ineffective :
    (∀ cfg st now, (tcpGate cfg st now).1 = AdmitResult.admitted ∨
        (tcpGate cfg st now).1 = AdmitResult.overCapacity) ∧
    (runArrivals ⟨2, 100⟩ ⟨[], 0, 0, 0⟩ [0, 50, 100]).1 =
      [AdmitResult.admitted, AdmitResult.admitted, AdmitResult.admitted] ∧
    (runArrivals ⟨2, 100⟩ ⟨[], 0, 0, 0⟩ [0, 50, 100]).2.failed_connections = 0 ∧
    (runArrivals ⟨2, 100⟩ ⟨[], 0, 0, 0⟩ [0, 50, 100]).2.total_connections = 3 := by
  refine ⟨tcpGate_never_rate_limited, ?_, ?_, ?_⟩ <;> decide

/-! ## TCP relay byte accounting (src/proxy/tcp.py)

TCPProxy.relay (tcp.py lines 41-62) copies 4 KiB chunks from a reader to a
writer; for each chunk it asks the writer for its peer address and adds the
chunk length to bytes_in when the peer IP equals listen_host, otherwise to
bytes_out.  handle_client (lines 64-173) increments active and total on
admission, runs the two relay directions (client to upstream writes to the
upstream socket, upstream to client writes to the client socket) and
decrements active at the end.
-/

structure TcpCounters where
  bytes_in : Nat
  bytes_out : Nat
  active_connections : Nat
  total_connections : Nat
deriving DecidableEq

/-- One iteration of the copy loop of TCPProxy.relay: a chunk of the given
length was written to a socket whose peer IP is peerIp. -/
def relayChunk (listenHost peerIp : String) (len : Nat) (c : TcpCounters) : TcpCounters :=
  if peerIp = listenHost then { c with bytes_in := c.bytes_in + len }
  else { c with bytes_out := c.bytes_out + len }

/-- TCPProxy.relay over the whole chunk sequence of one direction; the peer
of the writer is fixed for the lifetime of the connection. -/
def relay (listenHost peerIp : String) : List Nat → TcpCounters → TcpCounters
  | [], c => c
  | n :: ns, c => relay listenHost peerIp ns (relayChunk listenHost peerIp n c)

/-- The admitted path of TCPProxy.handle_client for one connection whose
two copy loops both run to completion: increment active and total, relay
client to upstream (writer peer is the upstream address), relay upstream to
client (writer peer is the client address), decrement active. -/
def handle_client_relay (listenHost targetIp clientIp : String)
    (clientChunks upstreamChunks : List Nat) (c : TcpCounters) : TcpCounters :=
  let c1 := { c with active_connections := c.active_connections + 1,
                     total_connections := c.total_connections + 1 }
  let c2 := relay listenHost targetIp clientChunks c1
  let c3 := relay listenHost clientIp upstreamChunks c2
  { c3 with active_connections := c3.active_connections - 1 }

/-- The seed scenario of the spec: listener 127.0.0.1:9101, upstream echo
server at 127.0.0.1:9102, client at 127.0.0.1 sends "ping" (4 bytes) and
receives "ping" back. -/
def seedRelayRun : TcpCounters :=
  handle_client_relay "127.0.0.1" "127.0.0.1" "127.0.0.1" [4] [4] ⟨0, 0, 0, 0⟩

/-- C4 counterexample: in the seed scenario the counters do not read
bytes_in = 4 and bytes_out = 4; both relay directions write to a peer whose
IP equals the listener host, so every chunk is attributed to bytes_in,
giving bytes_in = 8 and bytes_out = 0. -/
theorem seed_relay_bytes_counterexample :
    decide (seedRelayRun.bytes_in = 4 ∧ seedRelayRun.bytes_out = 4) = false ∧
    seedRelayRun.bytes_in = 8 ∧ seedRelayRun.bytes_out = 0 ∧
    seedRelayRun.total_connections = 1 ∧ seedRelayRun.active_connections = 0 := by
  decide

theorem relay_all_bytes_in (listenHost peerIp : String) (h : peerIp = listenHost)
    (ns : List Nat) (c : TcpCounters) :
    relay listenHost peerIp ns c =
      { c with bytes_in := c.bytes_in + ns.sum } := by
  induction ns generalizing c with
  | nil => simp [relay]
  | cons n t ih =>
    simp only [relay, relayChunk, if_pos h, ih, List.sum_cons]
    congr 1
    omega

/-- C4 amended: after a single fully relayed connection the counters read
total_connections = 1 and active = 0, and each relayed chunk is added to
bytes_in when the IP of the peer being written to equals the listener host
and to bytes_out otherwise; when the listener, the upstream and the client
all share the listener IP (the seed scenario) every byte of both directions
lands in bytes_in, so n bytes echoed give bytes_in = 2n and bytes_out = 0. -/
theorem handle_client_relay_same_host (listenHost targetIp clientIp : String)
    (h1 : targetIp = listenHost) (h2 : clientIp = listenHost)
    (clientChunks upstreamChunks : List Nat) :
    handle_client_relay listenHost targetIp clientIp clientChunks upstreamChunks
        ⟨0, 0, 0, 0⟩ =
      ⟨clientChunks.sum + upstreamChunks.sum, 0, 0, 1⟩ := by
  simp [handle_client_relay, relay_all_bytes_in _ _ h1, relay_all_bytes_in _ _ h2]

/-- Witness for the amended C4 theorem at the seed scenario. -/
theorem handle_client_relay_same_host_witness :
    handle_client_relay "127.0.0.1" "127.0.0.1" "127.0.0.1" [4] [4] ⟨0, 0, 0, 0⟩ =
      ⟨8, 0, 0, 1⟩ :=
  handle_client_relay_same_host "127.0.0.1" "127.0.0.1" "127.0.0.1" rfl rfl [4] [4]

/-! ## UDP datagram frontend (src/proxy/udp.py)

UDPProxy.Protocol.datagram_received (udp.py lines 37-41) counts the inbound
datagram and schedules forward; forward (lines 43-49) opens an ephemeral
datagram endpoint connected to the upstream address, sends the payload,
counts it and closes the endpoint immediately.  The effect trace makes the
socket operations explicit; the constructors awaitResponse and sendToOrigin
exist so that the behaviour the specification describes can be stated, the
code never produces them.
-/

inductive UdpEffect
  | openEphemeral (targetHost : String) (targetPort : Nat)
  | sendUpstream (payload : List Nat)
  | closeSocket
  | awaitResponse (timeoutMs : Nat)
  | sendToOrigin (origin : String) (payload : List Nat)
deriving DecidableEq

structure UdpCounters where
  bytes_in : Nat
  bytes_out : Nat
  packets_in : Nat
  packets_out : Nat
deriving DecidableEq

/-- UDPProxy.Protocol.datagram_received followed by the forward task it
schedules: count the datagram in, open an ephemeral endpoint to the
upstream, send the payload, count it out, close the endpoint. -/
def datagram_received (targetHost : String) (targetPort : Nat)
    (c : UdpCounters) (data : List Nat) : UdpCounters × List UdpEffect :=
  ({ bytes_in := c.bytes_in + data.length,
     bytes_out := c.bytes_out + data.length,
     packets_in := c.packets_in + 1,
     packets_out := c.packets_out + 1 },
   [UdpEffect.openEphemeral targetHost targetPort,
    UdpEffect.sendUpstream data,
    UdpEffect.closeSocket])

/-- C2 counterexample: for the concrete datagram "hi" (bytes 104, 105) the
handler trace is exactly open-send-close; it contains no await of a
response with the 5 second deadline and no send back to the original
sender, contradicting the claimed response path. -/
theorem udp_datagram_no_response_path :
    (datagram_received "10.0.0.2" 53 ⟨0, 0, 0, 0⟩ [104, 105]).2 =
      [UdpEffect.openEphemeral "10.0.0.2" 53,
       UdpEffect.sendUpstream [104, 105],
       UdpEffect.closeSocket] ∧
    decide (UdpEffect.awaitResponse 5000 ∈
      (datagram_received "10.0.0.2" 53 ⟨0, 0, 0, 0⟩ [104, 105]).2) = false ∧
    decide (UdpEffect.sendToOrigin "192.0.2.9" [104, 105] ∈
      (datagram_received "10.0.0.2" 53 ⟨0, 0, 0, 0⟩ [104, 105]).2) = false := by
  decide

/-- C2 amended: every inbound datagram is forwarded fire-and-forget: no
admission check of any kind runs (the UDP frontend holds no rate limiter),
the payload goes to the upstream address through an ephemeral socket that
is closed immediately, the counters each grow by the datagram size, and no
response is awaited or relayed back to the sender for any deadline. -/
theorem datagram_received_fire_and_forget (targetHost : String) (targetPort : Nat)
    (c : UdpCounters) (data : List Nat) :
    (datagram_received targetHost targetPort c data).1 =
      { bytes_in := c.bytes_in + data.length,
        bytes_out := c.bytes_out + data.length,
        packets_in := c.packets_in + 1,
        packets_out := c.packets_out + 1 } ∧
    (datagram_received targetHost targetPort c data).2 =
      [UdpEffect.openEphemeral targetHost targetPort,
       UdpEffect.sendUpstream data,
       UdpEffect.closeSocket] ∧
    (∀ tmo : Nat, decide (UdpEffect.awaitResponse tmo ∈
        (datagram_received targetHost targetPort c data).2) = false) ∧
    (∀ (origin : String) (resp : List Nat),
      decide (UdpEffect.sendToOrigin origin resp ∈
        (datagram_received targetHost targetPort c data).2) = false) := by
  refine ⟨rfl, rfl, ?_, ?_⟩
  · intro tmo
    simp [datagram_received]
  · intro origin resp
    simp [datagram_received]

/-! ## Certificate manager (src/proxy/cert_manager.py)

CertificateManager.__init__ (cert_manager.py lines 22-30) regenerates the
root CA whenever at least one of ca.crt and ca.key is missing, and touches
nothing when both exist.  The result type is an Except so that the loud
failure the specification requires is expressible; the code has no failing
branch.
-/

structure CAFiles where
  certFileExists : Bool
  keyFileExists : Bool
deriving DecidableEq

inductive CAAction
  | reuseExisting
  | generateBoth
deriving DecidableEq

/-- CertificateManager.__init__ on the root material: when either file is
missing, _generate_ca writes a fresh key and cert (both files exist
afterwards); when both exist they are left untouched. -/
def certManagerInit (fs : CAFiles) : Except String (CAFiles × CAAction) :=
  if !fs.certFileExists || !fs.keyFileExists then
    Except.ok ({ certFileExists := true, keyFileExists := true }, CAAction.generateBoth)
  else
    Except.ok (fs, CAAction.reuseExisting)

/-- C3 counterexample: on a start where the root cert file exists but the
root key file does not (and symmetrically), initialisation does not fail:
it succeeds and silently regenerates both root files, replacing the
surviving half of the old pair. -/
theorem ca_init_half_state_counterexample :
    certManagerInit ⟨true, false⟩ =
      Except.ok (⟨true, true⟩, CAAction.generateBoth) ∧
    certManagerInit ⟨false, true⟩ =
      Except.ok (⟨true, true⟩, CAAction.generateBoth) := by
  constructor <;> rfl

/-- C3 amended: initialisation never fails; after it both root files exist;
when both already exist the pair is reused unchanged, and when at least one
is missing both are regenerated (a fresh root replaces any half state
instead of a loud failure). -/
theorem ca_init_characterisation (fs : CAFiles) :
    ((certManagerInit fs).toOption.map
        (fun r => r.1.certFileExists && r.1.keyFileExists) = some true) ∧
    (fs.certFileExists = true → fs.keyFileExists = true →
      certManagerInit fs = Except.ok (fs, CAAction.reuseExisting)) ∧
    (fs.certFileExists = false ∨ fs.keyFileExists = false →
      certManagerInit fs =
        Except.ok (⟨true, true⟩, CAAction.generateBoth)) := by
  refine ⟨?_, ?_, ?_⟩
  · cases hc : fs.certFileExists <;> cases hk : fs.keyFileExists <;>
      simp [certManagerInit, hc, hk, Except.toOption]
  · intro hc hk
    simp [certManagerInit, hc, hk]
  · intro h
    rcases h with h | h <;> simp [certManagerInit, h]

/-- Witness for the amended C3 theorem: the reuse branch at a state with
both files and the regenerate branch at a half state. -/
theorem ca_init_characterisation_witness :
    certManagerInit ⟨true, true⟩ =
      Except.ok (⟨true, true⟩, CAAction.reuseExisting) ∧
    certManagerInit ⟨false, false⟩ =
      Except.ok (⟨true, true⟩, CAAction.generateBoth) :=
  ⟨(ca_init_characterisation ⟨true, true⟩).2.1 rfl rfl,
   (ca_init_characterisation ⟨false, false⟩).2.2 (Or.inl rfl)⟩

/-! ## Leaf certificate reuse (cert_manager.py lines 97-121 and 214-234)

generate_certificate reuses the cached pair when both files exist and
_is_cert_valid accepts the parsed certificate; _is_cert_valid rejects a
certificate outside its validity interval and one with fewer than 30 whole
days left, where the day count is the floor of the remaining seconds
divided by 86400 (Python timedelta.days).  Times are epoch seconds.
-/

structure LeafCert where
  notValidBefore : Int
  notValidAfter : Int
deriving DecidableEq

/-- CertificateManager._is_cert_valid; a load or parse failure is caught
and reported as invalid (the none case). -/
def is_cert_valid (parsed : Option LeafCert) (now : Int) : Bool :=
  match parsed with
  | none => false
  | some cert =>
    if now < cert.notValidBefore ∨ cert.notValidAfter < now then false
    else if Int.fdiv (cert.notValidAfter - now) 86400 < 30 then false
    else true

inductive LeafDecision
  | reuseCached
  | generateFresh
deriving DecidableEq

/-- The cache decision of CertificateManager.generate_certificate. -/
def generate_certificate (certFileEx keyFileEx : Bool) (parsed : Option LeafCert)
    (now : Int) : LeafDecision :=
  if certFileEx && keyFileEx then
    if is_cert_valid parsed now then LeafDecision.reuseCached
    else LeafDecision.generateFresh
  else LeafDecision.generateFresh

/-- The reuse condition in the words of the specification: both cached
files exist and the certificate parses, is currently within its validity
interval, and has at least 30 days (2592000 seconds) remaining. -/
def specLeafReusable (certFileEx keyFileEx : Bool) (parsed : Option LeafCert)
    (now : Int) : Prop :=
  certFileEx = true ∧ keyFileEx = true ∧
    match parsed with
    | none => False
    | some cert =>
      cert.notValidBefore ≤ now ∧ now ≤ cert.notValidAfter ∧
        30 * 86400 ≤ cert.notValidAfter - now

/-- The 30-whole-days test of the code agrees with the
at-least-30-days-in-seconds bound of the specification. -/
theorem is_cert_valid_iff (cert : LeafCert) (now : Int) :
    is_cert_valid (some cert) now = true ↔
      cert.notValidBefore ≤ now ∧ now ≤ cert.notValidAfter ∧
        30 * 86400 ≤ cert.notValidAfter - now := by
  have hdiv : (¬ Int.fdiv (cert.notValidAfter - now) 86400 < 30) ↔
      30 * 86400 ≤ cert.notValidAfter - now := by
    rw [Int.fdiv_eq_ediv _ (by norm_num : (0 : Int) ≤ 86400), not_lt,
      Int.le_ediv_iff_mul_le (by norm_num)]
  simp only [is_cert_valid]
  by_cases h1 : now < cert.notValidBefore ∨ cert.notValidAfter < now
  · simp only [if_pos h1]
    constructor
    · intro h; cases h
    · intro h; omega
  · simp only [if_neg h1]
    push_neg at h1
    by_cases h2 : Int.fdiv (cert.notValidAfter - now) 86400 < 30
    · simp only [if_pos h2]
      constructor
      · intro h; cases h
      · intro h; exact absurd h2 (hdiv.mpr h.2.2)
    · simp only [if_neg h2]
      exact ⟨fun _ => ⟨h1.1, h1.2, hdiv.mp h2⟩, fun _ => by trivial⟩

/-- C9: a cached leaf certificate is reused iff both files exist and the
certificate is currently within its validity interval with at least 30
days remaining; otherwise a fresh leaf is generated.  The floor-day count
of the code coincides with the 30-days-in-seconds bound of the spec. -/
theorem leaf_reuse_iff_spec (certFileEx keyFileEx : Bool) (parsed : Option LeafCert)
    (now : Int) :
    generate_certificate certFileEx keyFileEx parsed now = LeafDecision.reuseCached ↔
      specLeafReusable certFileEx keyFileEx parsed now := by
  cases certFileEx with
  | false => simp [generate_certificate, specLeafReusable]
  | true =>
    cases keyFileEx with
    | false => simp [generate_certificate, specLeafReusable]
    | true =>
      cases parsed with
      | none =>
        simp [generate_certificate, is_cert_valid, specLeafReusable]
      | some cert =>
        have hiff := is_cert_valid_iff cert now
        by_cases hv : is_cert_valid (some cert) now = true
        · simp only [generate_certificate, Bool.and_self, if_pos rfl, if_pos hv,
            specLeafReusable, true_and]
          exact ⟨fun _ => hiff.mp hv, fun _ => rfl⟩
        · simp only [generate_certificate, Bool.and_self, if_pos rfl, if_neg hv,
            specLeafReusable, true_and]
          constructor
          · intro h; cases h
          · intro h; exact absurd (hiff.mpr h) hv

/-! ## Persistence of the IP filter lists (src/proxy/ip_filter.py)

_save_blacklist (ip_filter.py lines 48-57) and _save_whitelist (59-67)
open the JSON file directly with mode w (truncating it) and dump the
document into it; there is no temporary file and no rename.  The mutation
entry points (91-135) validate or test membership, mutate the in-memory
set and call the save.  Filesystem activity is an explicit operation
trace; the rename constructor exists so the atomic write-then-rename the
specification describes can be stated, the code never produces it.
-/

inductive PersistDoc
  | blacklistDoc (ips : List String) (blockedCount : List (String × Nat))
  | whitelistDoc (ips : List String)
deriving DecidableEq

inductive FsOp
  | writeTruncate (path : String) (doc : PersistDoc)
  | renameFile (source : String) (dest : String)
deriving DecidableEq

def isRenameOp : FsOp → Bool
  | FsOp.renameFile _ _ => true
  | _ => false

def blacklistPath (dataDir : String) : String := dataDir ++ "/blacklist.json"

def whitelistPath (dataDir : String) : String := dataDir ++ "/whitelist.json"

/-- IPFilter._save_blacklist: one truncating write of the JSON document. -/
def save_blacklist (dataDir : String) (st : IPFilterState) : List FsOp :=
  [FsOp.writeTruncate (blacklistPath dataDir)
    (PersistDoc.blacklistDoc st.blacklist st.blockedCount)]

/-- IPFilter._save_whitelist: one truncating write of the JSON document. -/
def save_whitelist (dataDir : String) (st : IPFilterState) : List FsOp :=
  [FsOp.writeTruncate (whitelistPath dataDir)
    (PersistDoc.whitelistDoc st.whitelist)]

/-- Python set.add. -/
def insertSet (l : List String) (x : String) : List String :=
  if x ∈ l then l else l ++ [x]

/-- Python set.remove of a present element. -/
def removeSet (l : List String) (x : String) : List String :=
  l.filter (fun y => y != x)

/-- del d[k] of the blocked counter. -/
def dictErase (d : List (String × Nat)) (k : String) : List (String × Nat) :=
  d.filter (fun p => p.1 != k)

/-- IPFilter.add_to_blacklist; parseOk is the outcome of
ipaddress.ip_address on the entry (an invalid address raises, the mutation
is skipped and no save happens). -/
def add_to_blacklist (dataDir : String) (st : IPFilterState) (ip : String)
    (parseOk : Bool) : Bool × IPFilterState × List FsOp :=
  if parseOk then
    let st2 := { st with blacklist := insertSet st.blacklist ip }
    (true, st2, save_blacklist dataDir st2)
  else (false, st, [])

/-- IPFilter.remove_from_blacklist. -/
def remove_from_blacklist (dataDir : String) (st : IPFilterState) (ip : String) :
    Bool × IPFilterState × List FsOp :=
  if ip ∈ st.blacklist then
    let st2 := { st with blacklist := removeSet st.blacklist ip,
                         blockedCount := dictErase st.blockedCount ip }
    (true, st2, save_blacklist dataDir st2)
  else (false, st, [])

/-- IPFilter.add_to_whitelist. -/
def add_to_whitelist (dataDir : String) (st : IPFilterState) (ip : String)
    (parseOk : Bool) : Bool × IPFilterState × List FsOp :=
  if parseOk then
    let st2 := { st with whitelist := insertSet st.whitelist ip }
    (true, st2, save_whitelist dataDir st2)
  else (false, st, [])

/-- IPFilter.remove_from_whitelist. -/
def remove_from_whitelist (dataDir : String) (st : IPFilterState) (ip : String) :
    Bool × IPFilterState × List FsOp :=
  if ip ∈ st.whitelist then
    let st2 := { st with whitelist := removeSet st.whitelist ip }
    (true, st2, save_whitelist dataDir st2)
  else (false, st, [])

/-- C8 counterexample: adding 1.2.3.4 to an empty blacklist performs
exactly one filesystem operation, a truncating in-place write of
data/blacklist.json; the trace contains no rename, so the rewrite is not
of the write-then-rename form the claim asserts. -/
theorem blacklist_save_no_rename :
    (add_to_blacklist "data" ⟨[], [], []⟩ "1.2.3.4" true).2.2 =
      [FsOp.writeTruncate "data/blacklist.json"
        (PersistDoc.blacklistDoc ["1.2.3.4"] [])] ∧
    ((add_to_blacklist "data" ⟨[], [], []⟩ "1.2.3.4" true).2.2.any isRenameOp)
      = false := by
  decide

/-- C8 amended: every effective mutation of the blacklist or whitelist
persists the updated set as a JSON document under data_dir/blacklist.json
or data_dir/whitelist.json, but the rewrite is a single truncating
in-place write of the target file; no separate file is written and no
rename is performed. -/
theorem mutation_persistence_in_place (dataDir : String) (st : IPFilterState)
    (ip : String) :
    ((add_to_blacklist dataDir st ip true).2.2 =
      [FsOp.writeTruncate (blacklistPath dataDir)
        (PersistDoc.blacklistDoc (insertSet st.blacklist ip) st.blockedCount)]) ∧
    ((add_to_whitelist dataDir st ip true).2.2 =
      [FsOp.writeTruncate (whitelistPath dataDir)
        (PersistDoc.whitelistDoc (insertSet st.whitelist ip))]) ∧
    (ip ∈ st.blacklist →
      (remove_from_blacklist dataDir st ip).2.2 =
        [FsOp.writeTruncate (blacklistPath dataDir)
          (PersistDoc.blacklistDoc (removeSet st.blacklist ip)
            (dictErase st.blockedCount ip))]) ∧
    (ip ∈ st.whitelist →
      (remove_from_whitelist dataDir st ip).2.2 =
        [FsOp.writeTruncate (whitelistPath dataDir)
          (PersistDoc.whitelistDoc (removeSet st.whitelist ip))]) ∧
    ((add_to_blacklist dataDir st ip true).2.2.any isRenameOp = false) ∧
    ((add_to_whitelist dataDir st ip true).2.2.any isRenameOp = false) ∧
    ((remove_from_blacklist dataDir st ip).2.2.any isRenameOp = false) ∧
    ((remove_from_whitelist dataDir st ip).2.2.any isRenameOp = false) := by
  refine ⟨rfl, rfl, ?_, ?_, ?_, ?_, ?_, ?_⟩
  · intro h; simp [remove_from_blacklist, h, save_blacklist]
  · intro h; simp [remove_from_whitelist, h, save_whitelist]
  · simp [add_to_blacklist, save_blacklist, isRenameOp]
  · simp [add_to_whitelist, save_whitelist, isRenameOp]
  · by_cases h : ip ∈ st.blacklist <;>
      simp [remove_from_blacklist, h, save_blacklist, isRenameOp]
  · by_cases h : ip ∈ st.whitelist <;>
      simp [remove_from_whitelist, h, save_whitelist, isRenameOp]

/-- Witness for the amended C8 theorem: a removal from a one-element
blacklist writes the emptied document in place. -/
theorem mutation_persistence_in_place_witness :
    (remove_from_blacklist "data" ⟨[], ["1.2.3.4"], [("1.2.3.4", 2)]⟩ "1.2.3.4").2.2 =
      [FsOp.writeTruncate "data/blacklist.json"
        (PersistDoc.blacklistDoc [] [])] :=
  have h := mutation_persistence_in_place "data" ⟨[], ["1.2.3.4"], [("1.2.3.4", 2)]⟩
    "1.2.3.4"
  h.2.2.1 (by decide)

/-! ## HTTP request forwarding (src/proxy/http.py, lines 136-181)

HttpProxy.handle_request copies the request headers into a fresh dict,
skipping a case-insensitive drop set, then assigns Host (with the port
appended exactly when it is not the default of the backend scheme),
Connection: close, Accept-Encoding: identity, and, when the parsed cookie
jar is non-empty, a single reassembled Cookie header.  The body read from
the client is passed to the upstream request unchanged.
-/

/-- The drop set of handle_request (http.py lines 139-144), lower case. -/
def skip_headers : List String :=
  ["host", "connection", "keep-alive", "proxy-connection", "transfer-encoding",
   "upgrade", "content-length", "te", "trailer", "proxy-authorization",
   "proxy-authenticate", "accept-encoding"]

/-- Reassembly of the parsed cookie jar into one Cookie header value. -/
def joinCookies (cookies : List (String × String)) : String :=
  String.intercalate "; " (cookies.map (fun p => p.1 ++ "=" ++ p.2))

/-- The Host value of the code: append the port when (backend_https and
port != 443) or (not backend_https and port != 80). -/
def hostHeaderFor (th : String) (tp : Nat) (bh : Bool) : String :=
  if (bh && tp != 443) || (!bh && tp != 80) then th ++ ":" ++ toString tp
  else th

/-- The Host value in the words of the spec: the upstream host alone when
the port is the default of the scheme, else host:port. -/
def specHostHeader (th : String) (tp : Nat) (bh : Bool) : String :=
  if tp = (if bh then 443 else 80) then th else th ++ ":" ++ toString tp

theorem hostHeaderFor_eq_spec (th : String) (tp : Nat) (bh : Bool) :
    hostHeaderFor th tp bh = specHostHeader th tp bh := by
  cases bh with
  | false =>
    by_cases h : tp = 80 <;> simp [hostHeaderFor, specHostHeader, h]
  | true =>
    by_cases h : tp = 443 <;> simp [hostHeaderFor, specHostHeader, h]

/-- The filtered copy loop of handle_request (for key, value in
request.headers.items(): skip the drop set, else assign into the dict). -/
def copyFilteredHeaders (H : List (String × String)) : List (String × String) :=
  H.foldl
    (fun d p => if p.1.toLower ∈ skip_headers then d else dictInsert d p.1 p.2) []

/-- The client headers as a plain last-wins map (no filtering), used on
the specification side. -/
def clientHeaderMap (H : List (String × String)) : List (String × String) :=
  H.foldl (fun d p => dictInsert d p.1 p.2) []

def optOr (a b : Option String) : Option String :=
  match a with
  | some v => some v
  | none => b

/-- The value of the last pair of H whose key is k. -/
def lastVal : List (String × String) → String → Option String
  | [], _ => none
  | p :: t, k =>
    match lastVal t k with
    | some v => some v
    | none => if p.1 = k then some p.2 else none

/-- The value of the last pair of H whose key is k and is not dropped. -/
def lastValFiltered : List (String × String) → String → Option String
  | [], _ => none
  | p :: t, k =>
    match lastValFiltered t k with
    | some v => some v
    | none => if p.1 = k ∧ p.1.toLower ∉ skip_headers then some p.2 else none

theorem dictLookup_foldl_insert (H : List (String × String)) :
    ∀ d k, dictLookup (H.foldl (fun d p => dictInsert d p.1 p.2) d) k =
      optOr (lastVal H k) (dictLookup d k) := by
  induction H with
  | nil => intro d k; simp [lastVal, optOr]
  | cons p t ih =>
    intro d k
    simp only [List.foldl_cons]
    rw [ih]
    simp only [lastVal]
    cases htv : lastVal t k with
    | some v => simp [optOr]
    | none =>
      simp only [optOr, dictLookup_dictInsert]
      by_cases hk : k = p.1
      · simp [hk]
      · have h2 : ¬ p.1 = k := fun hh => hk hh.symm
        simp [hk, h2]

theorem dictLookup_foldl_filtered (H : List (String × String)) :
    ∀ d k, dictLookup (H.foldl
        (fun d p => if p.1.toLower ∈ skip_headers then d else dictInsert d p.1 p.2)
        d) k =
      optOr (lastValFiltered H k) (dictLookup d k) := by
  induction H with
  | nil => intro d k; simp [lastValFiltered, optOr]
  | cons p t ih =>
    intro d k
    simp only [List.foldl_cons]
    by_cases hskip : p.1.toLower ∈ skip_headers
    · rw [if_pos hskip, ih]
      simp only [lastValFiltered]
      cases htv : lastValFiltered t k with
      | some v => simp [optOr]
      | none =>
        simp only [optOr]
        have : ¬ (p.1 = k ∧ p.1.toLower ∉ skip_headers) := fun h => h.2 hskip
        simp [this]
    · rw [if_neg hskip, ih]
      simp only [lastValFiltered]
      cases htv : lastValFiltered t k with
      | some v => simp [optOr]
      | none =>
        simp only [optOr, dictLookup_dictInsert]
        by_cases hk : k = p.1
        · simp [hk, hskip]
        · have h2 : ¬ (p.1 = k ∧ p.1.toLower ∉ skip_headers) :=
            fun hh => hk hh.1.symm
          simp [hk, h2]

theorem lastValFiltered_eq_lastVal (H : List (String × String)) (k : String)
    (hk : k.toLower ∉ skip_headers) :
    lastValFiltered H k = lastVal H k := by
  induction H with
  | nil => rfl
  | cons p t ih =>
    simp only [lastValFiltered, lastVal, ih]
    cases lastVal t k with
    | some v => rfl
    | none =>
      by_cases hp : p.1 = k
      · subst hp; simp [hk]
      · simp [hp]

theorem lastValFiltered_dropped (H : List (String × String)) (k : String)
    (hk : k.toLower ∈ skip_headers) :
    lastValFiltered H k = none := by
  induction H with
  | nil => rfl
  | cons p t ih =>
    simp only [lastValFiltered, ih]
    by_cases hp : p.1 = k
    · subst hp; simp [hk]
    · simp [hp]

theorem dictLookup_copyFilteredHeaders (H : List (String × String)) (k : String) :
    dictLookup (copyFilteredHeaders H) k = lastValFiltered H k := by
  rw [copyFilteredHeaders, dictLookup_foldl_filtered]
  cases lastValFiltered H k <;> simp [optOr, dictLookup]

theorem dictLookup_clientHeaderMap (H : List (String × String)) (k : String) :
    dictLookup (clientHeaderMap H) k = lastVal H k := by
  rw [clientHeaderMap, dictLookup_foldl_insert]
  cases lastVal H k <;> simp [optOr, dictLookup]

theorem copyFiltered_residual (H : List (String × String)) (k : String) :
    dictLookup (copyFilteredHeaders H) k =
      if k.toLower ∈ skip_headers then none
      else dictLookup (clientHeaderMap H) k := by
  by_cases h : k.toLower ∈ skip_headers
  · simp [dictLookup_copyFilteredHeaders, lastValFiltered_dropped _ _ h, h]
  · simp [dictLookup_copyFilteredHeaders, dictLookup_clientHeaderMap,
      lastValFiltered_eq_lastVal _ _ h, h]

/-- The dict after the filtered copy and the three fixed assignments of
handle_request (Host, Connection, Accept-Encoding, in source order). -/
def forwardBase (H : List (String × String)) (th : String) (tp : Nat) (bh : Bool) :
    List (String × String) :=
  dictInsert
    (dictInsert
      (dictInsert (copyFilteredHeaders H) "Host" (hostHeaderFor th tp bh))
      "Connection" "close")
    "Accept-Encoding" "identity"

/-- The forwarded header dict of handle_request: the base assignments plus
the reassembled Cookie header when the parsed cookie jar is non-empty. -/
def buildForwardHeaders (H ck : List (String × String)) (th : String) (tp : Nat)
    (bh : Bool) : List (String × String) :=
  if ck ≠ [] then dictInsert (forwardBase H th tp bh) "Cookie" (joinCookies ck)
  else forwardBase H th tp bh

/-- The upstream request as handed to the client session: the rebuilt
headers and the body bytes read from the client, forwarded verbatim. -/
structure UpstreamRequest where
  headers : List (String × String)
  body : List Nat
deriving DecidableEq

def buildUpstreamRequest (H ck : List (String × String)) (th : String) (tp : Nat)
    (bh : Bool) (body : List Nat) : UpstreamRequest :=
  { headers := buildForwardHeaders H ck th tp bh, body := body }

/-- The forwarded header map in the words of the specification: the client
headers minus the case-insensitive drop set, with Host set per the scheme
default rule, Connection: close, Accept-Encoding: identity, and the cookie
jar reassembled into a single Cookie header. -/
def specForwardValue (H ck : List (String × String)) (th : String) (tp : Nat)
    (bh : Bool) (k : String) : Option String :=
  if k = "Host" then some (specHostHeader th tp bh)
  else if k = "Connection" then some "close"
  else if k = "Accept-Encoding" then some "identity"
  else if k = "Cookie" ∧ ck ≠ [] then some (joinCookies ck)
  else if k.toLower ∈ skip_headers then none
  else dictLookup (clientHeaderMap H) k

theorem dictLookup_forwardBase (H : List (String × String)) (th : String) (tp : Nat)
    (bh : Bool) (k : String) :
    dictLookup (forwardBase H th tp bh) k =
      if k = "Host" then some (hostHeaderFor th tp bh)
      else if k = "Connection" then some "close"
      else if k = "Accept-Encoding" then some "identity"
      else dictLookup (copyFilteredHeaders H) k := by
  unfold forwardBase
  rw [dictLookup_dictInsert, dictLookup_dictInsert, dictLookup_dictInsert]
  by_cases h1 : k = "Host"
  · subst h1; simp
  · by_cases h2 : k = "Connection"
    · subst h2; simp
    · by_cases h3 : k = "Accept-Encoding"
      · subst h3; simp
      · simp [h1, h2, h3]

/-- C5: for every request header list, cookie jar, upstream target and
header name, the header map the proxy sends upstream looks up exactly as
the specification describes (client headers minus the case-insensitive
drop set, Host per the scheme-default rule, Connection: close,
Accept-Encoding: identity, cookies reassembled into one Cookie header),
and the body is forwarded bit-identically. -/
theorem forward_request_matches_spec (H ck : List (String × String)) (th : String)
    (tp : Nat) (bh : Bool) :
    (∀ k, dictLookup (buildForwardHeaders H ck th tp bh) k =
      specForwardValue H ck th tp bh k) ∧
    hostHeaderFor th tp bh = specHostHeader th tp bh ∧
    (∀ body : List Nat, (buildUpstreamRequest H ck th tp bh body).body = body) := by
  refine ⟨?_, hostHeaderFor_eq_spec th tp bh, fun _ => rfl⟩
  intro k
  simp only [buildForwardHeaders, specForwardValue]
  by_cases hck : ck = []
  · rw [if_neg (by simp [hck])]
    rw [dictLookup_forwardBase, copyFiltered_residual]
    have hcook : ¬ (k = "Cookie" ∧ ck ≠ []) := fun h => h.2 hck
    simp only [if_neg hcook, hostHeaderFor_eq_spec]
  · rw [if_pos hck, dictLookup_dictInsert]
    by_cases hk : k = "Cookie"
    · subst hk
      have hcook : ("Cookie" : String) = "Cookie" ∧ ck ≠ [] := ⟨rfl, hck⟩
      simp [hcook]
    · rw [if_neg hk, dictLookup_forwardBase, copyFiltered_residual]
      have hcook : ¬ (k = "Cookie" ∧ ck ≠ []) := fun h => hk h.1
      simp only [if_neg hcook, hostHeaderFor_eq_spec]

/-! ## HTTP routing decision (src/proxy/http.py, lines 90-122)

handle_request takes the Host header (empty string when absent), truncates
it at the first colon, consults domain_routes only when the result is
non-empty and the route table is non-empty, falls back to the default
backend (target_host) when no route matched, and answers 502 with the body
"No backend configured for this domain" otherwise.
-/

structure BackendRef where
  host : String
  port : Nat
  https : Bool
deriving DecidableEq

inductive RouteResult
  | routeTo (b : BackendRef)
  | errorResponse (status : Nat) (message : String)
deriving DecidableEq

/-- request.headers.get("Host", "").split(":")[0]: the characters before
the first colon (the whole value when it has no colon). -/
def stripHostPort (h : String) : String :=
  String.mk (h.data.takeWhile (fun c => c != ':'))

/-- What the code does when neither branch routed: use the default backend
when set, else the 502 response. -/
def defaultDecision (dflt : Option BackendRef) : RouteResult :=
  match dflt with
  | some b => RouteResult.routeTo b
  | none => RouteResult.errorResponse 502 "No backend configured for this domain"

/-- The routing decision of handle_request. -/
def resolveRoute (hostHeader : Option String) (routes : List (String × BackendRef))
    (dflt : Option BackendRef) : RouteResult :=
  match
    (if stripHostPort (hostHeader.getD "") ≠ "" ∧ routes ≠ [] then
      dictLookup routes (stripHostPort (hostHeader.getD "")) else none) with
  | some b => RouteResult.routeTo b
  | none => defaultDecision dflt

def emptyHostBackend : BackendRef := ⟨"10.0.0.5", 8080, false⟩

/-- C6 counterexample: when the route table contains the empty host
pattern, no default backend is set and the port-stripped Host of the
request is empty, the claimed exact-match rule would route to the listed
backend, but the code never consults the table for an empty host and
answers 502 with the body "No backend configured for this domain". -/
theorem route_empty_host_counterexample :
    resolveRoute (some "") [("", emptyHostBackend)] none =
      RouteResult.errorResponse 502 "No backend configured for this domain" ∧
    decide (resolveRoute (some "") [("", emptyHostBackend)] none =
      RouteResult.routeTo emptyHostBackend) = false := by
  constructor
  · rfl
  · rfl

/-- C6 amended: the routing decision is resolved in order: an exact match
of the port-stripped Host header in domain_routes wins provided the
stripped host is non-empty (an absent or empty Host never matches a
route); otherwise the default backend is used when set; otherwise the
proxy responds 502 with the body "No backend configured for this
domain". -/
theorem route_resolution_order (hostHeader : Option String)
    (routes : List (String × BackendRef)) (dflt : Option BackendRef) :
    (∀ b, stripHostPort (hostHeader.getD "") ≠ "" →
      dictLookup routes (stripHostPort (hostHeader.getD "")) = some b →
      resolveRoute hostHeader routes dflt = RouteResult.routeTo b) ∧
    (dictLookup routes (stripHostPort (hostHeader.getD "")) = none →
      resolveRoute hostHeader routes dflt = defaultDecision dflt) ∧
    (stripHostPort (hostHeader.getD "") = "" →
      resolveRoute hostHeader routes dflt = defaultDecision dflt) := by
  refine ⟨?_, ?_, ?_⟩
  · intro b hne hlk
    have hnr : routes ≠ [] := by
      intro h; subst h; simp [dictLookup] at hlk
    simp [resolveRoute, hne, hnr, hlk]
  · intro hlk
    by_cases hne : stripHostPort (hostHeader.getD "") = ""
    · simp [resolveRoute, hne]
    · by_cases hnr : routes = []
      · simp [resolveRoute, hnr]
      · simp [resolveRoute, hne, hnr, hlk]
  · intro hne
    simp [resolveRoute, hne]

/-- Witness for the amended C6 theorem: an exact host match routes to its
backend, and an unmatched host with no default backend yields the 502. -/
theorem route_resolution_order_witness :
    resolveRoute (some "a.test") [("a.test", emptyHostBackend)] none =
      RouteResult.routeTo emptyHostBackend ∧
    resolveRoute (some "c.test") [("a.test", emptyHostBackend)] none =
      RouteResult.errorResponse 502 "No backend configured for this domain" :=
  ⟨(route_resolution_order (some "a.test") [("a.test", emptyHostBackend)] none).1
      emptyHostBackend (by decide) (by decide),
   (route_resolution_order (some "c.test") [("a.test", emptyHostBackend)] none).2.1
      (by decide)⟩

/-! ## Proxy manager registration (src/proxy/manager.py)

register_tcp (manager.py lines 46-57), register_udp (59-65) and
register_http (67-78) all return immediately when the id is already in
their map, otherwise construct the proxy, start it (a failed start raises
and nothing is inserted) and insert it into the map; create_proxy
dispatches on the protocol.
-/

structure RuntimeRec where
  listen_host : String
  listen_port : Nat
  target_host : String
  target_port : Nat
deriving DecidableEq

inductive ProxyMode
  | tcp
  | udp
  | http
deriving DecidableEq

structure ProxySpec where
  name : String
  mode : ProxyMode
  listen_host : String
  listen_port : Nat
  target_host : String
  target_port : Nat
deriving DecidableEq

structure ManagerState where
  tcp_proxies : List (String × RuntimeRec)
  udp_proxies : List (String × RuntimeRec)
  http_proxies : List (String × RuntimeRec)
deriving DecidableEq

def mkRuntime (s : ProxySpec) : RuntimeRec :=
  ⟨s.listen_host, s.listen_port, s.target_host, s.target_port⟩

/-- The shared shape of register_tcp, register_udp and register_http:
no-op when the id is present, otherwise start (bindOk is the outcome of
proxy.start) and insert on success. -/
def registerProxy (m : List (String × RuntimeRec)) (name : String) (r : RuntimeRec)
    (bindOk : Bool) : List (String × RuntimeRec) :=
  if (dictLookup m name).isSome then m
  else if bindOk then m ++ [(name, r)] else m

def modeMap (st : ManagerState) : ProxyMode → List (String × RuntimeRec)
  | ProxyMode.tcp => st.tcp_proxies
  | ProxyMode.udp => st.udp_proxies
  | ProxyMode.http => st.http_proxies

/-- ProxyManager.create_proxy dispatching on the protocol of the spec. -/
def create_proxy (st : ManagerState) (s : ProxySpec) (bindOk : Bool) : ManagerState :=
  match s.mode with
  | ProxyMode.tcp =>
    { st with tcp_proxies := registerProxy st.tcp_proxies s.name (mkRuntime s) bindOk }
  | ProxyMode.udp =>
    { st with udp_proxies := registerProxy st.udp_proxies s.name (mkRuntime s) bindOk }
  | ProxyMode.http =>
    { st with http_proxies := registerProxy st.http_proxies s.name (mkRuntime s) bindOk }

/-- The number of runtimes registered under a name, across the maps. -/
def runtimeCount (st : ManagerState) (name : String) : Nat :=
  (st.tcp_proxies.filter (fun p => p.1 == name)).length +
  (st.udp_proxies.filter (fun p => p.1 == name)).length +
  (st.http_proxies.filter (fun p => p.1 == name)).length

theorem registerProxy_idem (m : List (String × RuntimeRec)) (name : String)
    (r : RuntimeRec) (bindOk : Bool) :
    registerProxy (registerProxy m name r bindOk) name r bindOk =
      registerProxy m name r bindOk := by
  by_cases h : (dictLookup m name).isSome
  · simp [registerProxy, h]
  · cases bindOk with
    | false => simp [registerProxy, h]
    | true =>
      have hnone : dictLookup m name = none := by
        cases hm : dictLookup m name with
        | none => rfl
        | some v => rw [hm] at h; simp at h
      have happ : dictLookup (m ++ [(name, r)]) name = some r :=
        dictLookup_append_single m name r hnone
      simp [registerProxy, h, happ]

theorem filter_length_zero_lookup_none (m : List (String × RuntimeRec)) (name : String)
    (h : (m.filter (fun p => p.1 == name)).length = 0) :
    dictLookup m name = none := by
  induction m with
  | nil => rfl
  | cons p t ih =>
    by_cases hp : p.1 = name
    · simp [List.filter_cons, hp] at h
    · simp only [List.filter_cons] at h
      rw [show (p.1 == name) = false by simp [hp]] at h
      simp only [if_neg Bool.false_ne_true] at h
      simp [dictLookup, hp, ih h]

/-- C10 amended: registration is idempotent per name and mode: running
create_proxy twice with the same spec leaves the same state as running it
once; starting a spec twice when no runtime with its name exists in any
map yields exactly one runtime under its name; and when a runtime for the
name already exists in the map of the mode of the spec, create_proxy is a
no-op that leaves the manager state unchanged.  The guard only consults
the map of the mode of the spec, so a same-named runtime of a different
mode does not block registration (see the counterexample). -/
theorem start_idempotent_one_runtime (st : ManagerState) (s : ProxySpec) :
    (∀ bindOk, create_proxy (create_proxy st s bindOk) s bindOk =
      create_proxy st s bindOk) ∧
    (runtimeCount st s.name = 0 →
      runtimeCount (create_proxy (create_proxy st s true) s true) s.name = 1) ∧
    (∀ bindOk, (dictLookup (modeMap st s.mode) s.name).isSome = true →
      create_proxy st s bindOk = st) := by
  refine ⟨?_, ?_, ?_⟩
  · intro bindOk
    cases hm : s.mode <;>
      simp [create_proxy, hm, registerProxy_idem]
  · intro h0
    have h1 : (st.tcp_proxies.filter (fun p => p.1 == s.name)).length = 0 := by
      rw [runtimeCount] at h0; omega
    have h2 : (st.udp_proxies.filter (fun p => p.1 == s.name)).length = 0 := by
      rw [runtimeCount] at h0; omega
    have h3 : (st.http_proxies.filter (fun p => p.1 == s.name)).length = 0 := by
      rw [runtimeCount] at h0; omega
    have happ : ∀ m : List (String × RuntimeRec),
        (m.filter (fun p => p.1 == s.name)).length = 0 →
        ((registerProxy m s.name (mkRuntime s) true).filter
          (fun p => p.1 == s.name)).length = 1 := by
      intro m hm
      have hnone := filter_length_zero_lookup_none m s.name hm
      simp [registerProxy, hnone, List.filter_append, hm]
    have hsame : ∀ m : List (String × RuntimeRec),
        (m.filter (fun p => p.1 == s.name)).length = 0 →
        ((registerProxy (registerProxy m s.name (mkRuntime s) true) s.name
            (mkRuntime s) true).filter (fun p => p.1 == s.name)).length = 1 := by
      intro m hm
      rw [registerProxy_idem]
      exact happ m hm
    cases hmode : s.mode <;>
      simp [create_proxy, hmode, runtimeCount, hsame st.tcp_proxies h1,
        hsame st.udp_proxies h2, hsame st.http_proxies h3, h1, h2, h3, happ]
  · intro bindOk hex
    cases hmode : s.mode <;>
    · rw [hmode] at hex
      simp only [modeMap] at hex
      simp [create_proxy, hmode, registerProxy, hex]

/-- A TCP spec and a UDP spec sharing the name x. -/
def specX_tcp : ProxySpec := ⟨"x", ProxyMode.tcp, "127.0.0.1", 9201, "127.0.0.1", 9202⟩

def specX_udp : ProxySpec := ⟨"x", ProxyMode.udp, "127.0.0.1", 9203, "127.0.0.1", 9204⟩

/-- C10 counterexample: the per-mode duplicate guards of register_tcp,
register_udp and register_http each check only their own map, so while a
tcp runtime named x exists, starting a udp spec with the same name is not
a no-op: the state changes and a second runtime is registered under the
name x, against the claimed at-most-one-runtime-per-name no-op. -/
theorem duplicate_name_across_modes_counterexample :
    runtimeCount
        (create_proxy (create_proxy ⟨[], [], []⟩ specX_tcp true) specX_udp true)
        "x" = 2 ∧
    decide (create_proxy (create_proxy ⟨[], [], []⟩ specX_tcp true) specX_udp true =
      create_proxy ⟨[], [], []⟩ specX_tcp true) = false := by
  decide

/-- The seed TCP frontend of the spec. -/
def specT1 : ProxySpec := ⟨"t1", ProxyMode.tcp, "127.0.0.1", 9101, "127.0.0.1", 9102⟩

/-- Witness for the C10 theorem: starting the seed spec twice from an
empty manager yields exactly one runtime named t1, and starting it again
on a state that already holds a t1 runtime changes nothing. -/
theorem start_idempotent_one_runtime_witness :
    runtimeCount (create_proxy (create_proxy ⟨[], [], []⟩ specT1 true) specT1 true)
        specT1.name = 1 ∧
    create_proxy ⟨[("t1", mkRuntime specT1)], [], []⟩ specT1 true =
      ⟨[("t1", mkRuntime specT1)], [], []⟩ :=
  ⟨(start_idempotent_one_runtime ⟨[], [], []⟩ specT1).2.1 rfl,
   (start_idempotent_one_runtime ⟨[("t1", mkRuntime specT1)], [], []⟩ specT1).2.2
      true (by decide)⟩

end ProxyOX
